import Mathlib

set_option linter.unusedVariables false

namespace Guardian

/-- Character-level test that `p` is an initial segment of `l`
(Go `strings.HasPrefix` on rune lists). -/
def charsLead : List Char → List Char → Bool
  | [], _ => true
  | _ :: _, [] => false
  | a :: as, b :: bs => a == b && charsLead as bs

/-- Character-level substring containment scan. -/
def charsContain (sub : List Char) : List Char → Bool
  | [] => sub.isEmpty
  | c :: rest => charsLead sub (c :: rest) || charsContain sub rest

/-- Go `strings.Contains(s, sub)`. -/
def strContains (s sub : String) : Bool :=
  charsContain sub.toList s.toList

namespace Ups

/-- UPS status sample (`ups.Status`): unit name, raw status flag string
("OL" online, "OB" on battery, "LB" low battery), battery charge percent,
runtime seconds, load percent.  The sample timestamp carries no logic and
is omitted. -/
structure Status where
  name : String
  status : String
  batteryCharge : Int
  runtime : Int
  load : Int
deriving Repr, DecidableEq

/-- `Status.IsOnline`: the raw status string contains "OL". -/
def Status.isOnline (s : Status) : Bool := strContains s.status "OL"

/-- `Status.IsOnBattery`: the raw status string contains "OB". -/
def Status.isOnBattery (s : Status) : Bool := strContains s.status "OB"

/-- `Status.IsLowBattery`: the raw status string contains "LB". -/
def Status.isLowBattery (s : Status) : Bool := strContains s.status "LB"

/-- Battery-percent thresholds (`ups.Thresholds`). -/
structure Thresholds where
  warning : Int
  critical : Int
  emergency : Int
deriving Repr, DecidableEq

/-- Event kinds (`ups.EventType` constants). -/
inductive EventType
  | powerLost
  | powerRestored
  | lowBattery
  | criticalBattery
  | emergency
deriving Repr, DecidableEq

/-- A UPS event (`ups.Event`); the wall-clock timestamp carries no logic and
is omitted. -/
structure Event where
  type : EventType
  status : Status
  message : String
deriving Repr, DecidableEq

/-- Renders an integer percentage, as Go `fmt.Sprintf("%d%%", c)`. -/
def pct (c : Int) : String := toString c ++ "%"

/-- `Monitor.checkEvents(current, last)`: the list of events passed to
`emitEvent` on one tick, in emission order.  (`emitEvent` performs a
non-blocking channel send; this models the emissions themselves.) -/
def checkEvents (th : Thresholds) (current : Status) (last : Option Status) : List Event :=
  (match last with
   | some l =>
     (if l.isOnline && current.isOnBattery then
        [{ type := .powerLost, status := current, message := "Power lost, running on battery" }]
      else []) ++
     (if l.isOnBattery && current.isOnline then
        [{ type := .powerRestored, status := current, message := "Power restored" }]
      else [])
   | none => []) ++
  (if current.isOnBattery then
     (if current.batteryCharge ≤ th.emergency then
        [{ type := .emergency, status := current,
           message := "EMERGENCY: Battery at " ++ pct current.batteryCharge }]
      else if current.batteryCharge ≤ th.critical then
        [{ type := .criticalBattery, status := current,
           message := "Critical battery: " ++ pct current.batteryCharge }]
      else if current.batteryCharge ≤ th.warning then
        [{ type := .lowBattery, status := current,
           message := "Low battery: " ++ pct current.batteryCharge }]
      else [])
   else [])

/-- `Monitor.monitorLoop` restricted to its event derivation: each tick either
fails to sample (`none`, the previous sample is retained) or yields a sample,
which is checked against the retained previous sample and then becomes the
new previous sample.  Returns all emitted events in order. -/
def monitorTrace (th : Thresholds) : List (Option Status) → Option Status → List Event
  | [], _ => []
  | none :: rest, last => monitorTrace th rest last
  | some s :: rest, last => checkEvents th s last ++ monitorTrace th rest (some s)

/-- An event is one of the three battery-level kinds. -/
def isBatteryEvent (e : Event) : Bool :=
  e.type == .lowBattery || e.type == .criticalBattery || e.type == .emergency

end Ups

namespace Exec

/-- `executor.ActionResult`: success flag, captured output, error string,
retry count.  The wall-clock duration carries no logic and is modelled as a
plain number fixed at 0. -/
structure ActionResult where
  success : Bool
  output : String
  error : String
  duration : Nat
  retries : Nat
deriving Repr, DecidableEq

/-- The observable outcome of one `Executor.Execute(ctx)` call: the fields of
the returned `ActionResult` plus the returned Go `error` value (`none` when
nil).  Every concrete executor in the package (local, ssh, proxmox) builds
its result literal without touching `Retries`, so the produced result always
carries `retries = 0`. -/
structure ExecOutcome where
  success : Bool
  output : String
  error : String
  goErr : Option String
deriving Repr, DecidableEq

/-- The `ActionResult` built by a concrete executor for a given outcome. -/
def outcomeResult (o : ExecOutcome) : ActionResult :=
  { success := o.success, output := o.output, error := o.error,
    duration := 0, retries := 0 }

/-- An executor under test: the outcome of its `Execute` on each 1-based
attempt number. -/
def ExecModel : Type := Nat → ExecOutcome

/-- `executor.RetryConfig`: attempts, delay, backoff mode. -/
structure RetryConfig where
  attempts : Nat
  delay : Nat
  backoff : String
deriving Repr, DecidableEq

/-- `executor.HealthcheckConfig`. -/
structure HealthcheckConfig where
  command : String
  expect : String
deriving Repr, DecidableEq

/-- Return value of the retry wrapper: the `*ActionResult` (possibly nil),
the Go `error`, and — as ghost instrumentation — how many times
`exec.Execute` was invoked. -/
structure RetryOut where
  result : Option ActionResult
  err : Option String
  calls : Nat
deriving Repr, DecidableEq

/-- The `for attempt := 1; attempt <= retry.Attempts; attempt++` loop of
`ExecuteWithRetry`, by remaining iterations.  `ctxDone k` tells whether the
context is observed cancelled in the wait after attempt `k`; `delay` is
threaded as in the source (it only affects timing).  On a success the result
receives `Retries = attempt - 1`; when the loop exhausts, the last result
receives `Retries = retry.Attempts`. -/
def retryLoop (exec : ExecModel) (ctxDone : Nat → Bool) (total : Nat) (backoff : String) :
    Nat → Nat → Nat → Option ActionResult → Option String → Nat → RetryOut
  | 0, _, _, last, lastErr, calls =>
    { result := last.map (fun r => { r with retries := total }),
      err := lastErr, calls := calls }
  | rem + 1, attempt, delay, _, _, calls =>
    let o := exec attempt
    let res := outcomeResult o
    if o.goErr.isNone && o.success then
      { result := some { res with retries := attempt - 1 }, err := none,
        calls := calls + 1 }
    else if attempt < total && ctxDone attempt then
      { result := none, err := some "context canceled", calls := calls + 1 }
    else
      retryLoop exec ctxDone total backoff rem (attempt + 1)
        (if backoff == "exponential" && attempt < total then delay * 2 else delay)
        (some res) o.goErr (calls + 1)

/-- `executor.ExecuteWithRetry(ctx, exec, retry)`:  a nil retry config or
`Attempts <= 1` performs a single `Execute`; otherwise the retry loop runs. -/
def ExecuteWithRetry (exec : ExecModel) (ctxDone : Nat → Bool) (retry : Option RetryConfig) :
    RetryOut :=
  match retry with
  | none =>
    let o := exec 1
    { result := some (outcomeResult o), err := o.goErr, calls := 1 }
  | some r =>
    if r.attempts ≤ 1 then
      let o := exec 1
      { result := some (outcomeResult o), err := o.goErr, calls := 1 }
    else
      retryLoop exec ctxDone r.attempts r.backoff r.attempts 1 r.delay none none 0

end Exec

/-- Session status values.  Both the orchestrator's `State.Status` and the
state package's `Status` are Go strings drawn from the same five constants
"idle", "in_progress", "completed", "failed", "recovering"; they are
modelled by one closed enumeration. -/
inductive Status
  | idle
  | inProgress
  | completed
  | failed
  | recovering
deriving Repr, DecidableEq

/-- The Go string constant for each status. -/
def statusStr : Status → String
  | .idle => "idle"
  | .inProgress => "in_progress"
  | .completed => "completed"
  | .failed => "failed"
  | .recovering => "recovering"

/-- The status-transition DAG named by the specification:
idle → in-progress → \x7bcompleted, failed\x7d;
\x7bin-progress, completed, failed\x7d → recovering → \x7bidle, failed\x7d. -/
def dagStep : Status → Status → Bool
  | .idle, .inProgress => true
  | .inProgress, .completed => true
  | .inProgress, .failed => true
  | .inProgress, .recovering => true
  | .completed, .recovering => true
  | .failed, .recovering => true
  | .recovering, .idle => true
  | .recovering, .failed => true
  | _, _ => false

/-- A step of a status trace is either no change or a DAG edge. -/
def dagOk (a b : Status) : Bool := a == b || dagStep a b

namespace Orch

/-- `orchestrator.CompletedAction`: journal entry kept by the orchestrator's
own state file.  The completion wall-clock timestamp carries no logic and is
fixed at 0. -/
structure CompletedAction where
  phaseIndex : Nat
  phaseName : String
  actionIndex : Nat
  actionType : String
  description : String
  recoveryCmd : String
  completedAt : Nat
  success : Bool
  error : String
deriving Repr, DecidableEq

/-- `orchestrator.State`. -/
structure State where
  sessionID : String
  startedAt : Nat
  status : Status
  currentPhase : Nat
  currentAction : Nat
  completedActions : List CompletedAction
  triggerEvent : String
  lastUpdated : Nat
deriving Repr, DecidableEq

/-- A concrete executor as the orchestrator observes it: the outcome of each
`Execute` attempt, the `Healthcheck` reply (ok flag and whether it returned a
Go error), and the `String()` description. -/
structure ExecutorModel where
  run : Nat → Exec.ExecOutcome
  healthOk : Bool
  healthErr : Bool
  descr : String

/-- `orchestrator.Action`. -/
structure Action where
  type : String
  exec : ExecutorModel
  recovery : String
  onError : String
  retry : Option Exec.RetryConfig
  healthcheck : Option Exec.HealthcheckConfig

/-- `orchestrator.Phase`. -/
structure Phase where
  name : String
  parallel : Bool
  timeout : Nat
  condition : String
  actions : List Action

/-- `Orchestrator.executeAction`: run with the retry wrapper when a retry
config is present, otherwise a single `Execute`; then, if the action carries
a healthcheck, a failing or erroring healthcheck turns the outcome into an
error "healthcheck failed". -/
def executeAction (ctxDone : Nat → Bool) (a : Action) :
    Option Exec.ActionResult × Option String :=
  let ran :=
    match a.retry with
    | some r =>
      let out := Exec.ExecuteWithRetry a.exec.run ctxDone (some r)
      (out.result, out.err)
    | none =>
      let o := a.exec.run 1
      (some (Exec.outcomeResult o), o.goErr)
  match ran.2 with
  | some e => (ran.1, some e)
  | none =>
    match a.healthcheck with
    | none => (ran.1, none)
    | some _ =>
      if a.exec.healthErr || !a.exec.healthOk then (ran.1, some "healthcheck failed")
      else (ran.1, none)

/-- The `CompletedAction` record built after one action, exactly as in
`executeSequential` / `executeParallel`: `Success` is `err == nil &&
result.Success`; `Error` is the Go error text, else the result's error when
the result was unsuccessful. -/
def completedOf (phaseIndex : Nat) (phaseName : String) (i : Nat) (a : Action)
    (res : Option Exec.ActionResult) (err : Option String) : CompletedAction :=
  let resSuccess := match res with | some r => r.success | none => false
  { phaseIndex := phaseIndex, phaseName := phaseName, actionIndex := i,
    actionType := a.type, description := a.exec.descr, recoveryCmd := a.recovery,
    completedAt := 0,
    success := err.isNone && resSuccess,
    error :=
      match err with
      | some e => e
      | none => if resSuccess then "" else (match res with | some r => r.error | none => "") }

/-- The body of `executeSequential` over the (index, action) pairs remaining
in the phase: update `CurrentAction`, persist, execute, append the completed
record, then apply the action's `on_error` policy to decide between
continuing and returning an abort error. -/
def seqLoop (ctxDone : Nat → Bool) (phaseIndex : Nat) (phaseName : String) :
    List (Nat × Action) → State → State × Option String
  | [], st => (st, none)
  | (i, a) :: rest, st =>
    let st1 := { st with currentAction := i }
    let ran := executeAction ctxDone a
    let resSuccess := match ran.1 with | some r => r.success | none => false
    let completed := completedOf phaseIndex phaseName i a ran.1 ran.2
    let st2 := { st1 with completedActions := st1.completedActions ++ [completed] }
    if ran.2.isSome || !resSuccess then
      match a.onError with
      | "continue" => seqLoop ctxDone phaseIndex phaseName rest st2
      | "abort_phase" => (st2, some "action failed, aborting phase")
      | "abort_all" => (st2, some "action failed, aborting all")
      | _ => seqLoop ctxDone phaseIndex phaseName rest st2
    else
      seqLoop ctxDone phaseIndex phaseName rest st2

/-- `Orchestrator.executeSequential`. -/
def executeSequential (ctxDone : Nat → Bool) (phaseIndex : Nat) (ph : Phase)
    (st : State) : State × Option String :=
  seqLoop ctxDone phaseIndex ph.name ph.actions.enum st

/-- The fan-out of `executeParallel`.  Every action runs to completion
regardless of the others; the journal lock serializes the appends, whose
order within the phase is nondeterministic — this models the
declaration-order linearization.  An error lands on the abort channel only
for actions whose `on_error` is "abort_all" and whose Go error is non-nil. -/
def parLoop (ctxDone : Nat → Bool) (phaseIndex : Nat) (phaseName : String) :
    List (Nat × Action) → State → List String → State × List String
  | [], st, errs => (st, errs)
  | (i, a) :: rest, st, errs =>
    let ran := executeAction ctxDone a
    let completed := completedOf phaseIndex phaseName i a ran.1 ran.2
    let st2 := { st with completedActions := st.completedActions ++ [completed] }
    let errs2 :=
      match ran.2 with
      | some e => if a.onError == "abort_all" then errs ++ [e] else errs
      | none => errs
    parLoop ctxDone phaseIndex phaseName rest st2 errs2

/-- `Orchestrator.executeParallel`: wait for every task, then return the
first abort error drained from the channel, if any. -/
def executeParallel (ctxDone : Nat → Bool) (phaseIndex : Nat) (ph : Phase)
    (st : State) : State × Option String :=
  let out := parLoop ctxDone phaseIndex ph.name ph.actions.enum st []
  (out.1, out.2.head?)

/-- `Orchestrator.executePhase` (the phase timeout only shapes the context
deadline and is not modelled separately). -/
def executePhase (ctxDone : Nat → Bool) (phaseIndex : Nat) (ph : Phase)
    (st : State) : State × Option String :=
  if ph.parallel then executeParallel ctxDone phaseIndex ph st
  else executeSequential ctxDone phaseIndex ph st

/-- Result of `Orchestrator.Execute`: the final state of the session it
created, and — ghost instrumentation — the successive values assigned to
that session's `Status` field. -/
structure ExecOut where
  state : State
  trace : List Status
deriving Repr, DecidableEq

/-- `Orchestrator.Execute(ctx, trigger)`: open a fresh session with status
"in_progress"; for each phase in order set the progress indices, run the
phase, and — as the source does — log any phase error and continue to the
next phase; finally set status "completed".  `now` stands for
`time.Now().UnixNano()`. -/
def Execute (ctxDone : Nat → Bool) (phases : List Phase) (trigger : String)
    (now : Nat) : ExecOut :=
  let st0 : State :=
    { sessionID := toString now, startedAt := now, status := .inProgress,
      currentPhase := 0, currentAction := 0, completedActions := [],
      triggerEvent := trigger, lastUpdated := now }
  let final := phases.enum.foldl
    (fun st pr =>
      let st1 := { st with currentPhase := pr.1, currentAction := 0 }
      let out := executePhase ctxDone pr.1 pr.2 st1
      out.1)
    st0
  { state := { final with status := .completed },
    trace := [.inProgress, .completed] }

/-- Result of `Orchestrator.Recover`. -/
structure RecoverOut where
  state : State
  err : Option String
  trace : List Status
deriving Repr, DecidableEq

/-- `Orchestrator.Recover(ctx)`: refused unless the status is "in_progress"
or "completed"; otherwise the status becomes "recovering", the reverse walk
over completed actions only logs (executor reconstruction is not
implemented), and the state ends at "idle" with the completed actions
dropped. -/
def Recover (ost : State) : RecoverOut :=
  if !(ost.status == .inProgress) && !(ost.status == .completed) then
    { state := ost, err := some "nothing to recover", trace := [ost.status] }
  else
    let st1 := { ost with status := .recovering }
    let st2 := { st1 with status := .idle, completedActions := [] }
    { state := st2, err := none, trace := [ost.status, .recovering, .idle] }

end Orch

namespace StatePkg

/-- `state.SelectorSpec`. -/
structure SelectorSpec where
  type : String
  tags : List String
  excludeTags : List String
  nameRegex : String
  vmidRange : List Int
deriving Repr, DecidableEq

/-- `state.ActionSpec`: everything needed to recreate an executor. -/
structure ActionSpec where
  type : String
  host : String
  user : String
  guest : String
  command : String
  recovery : String
  action : String
  selector : Option SelectorSpec
deriving Repr, DecidableEq

/-- `state.CompletedAction`. -/
structure CompletedAction where
  phaseIndex : Nat
  phaseName : String
  actionIndex : Nat
  actionType : String
  actionSpec : ActionSpec
  completedAt : Nat
  success : Bool
  output : String
  error : String
deriving Repr, DecidableEq

/-- `state.State`, the journal document. -/
structure State where
  sessionID : String
  startedAt : Nat
  status : Status
  triggerEvent : String
  currentPhase : Nat
  currentAction : Nat
  completedActions : List CompletedAction
  lastUpdated : Nat
  lastError : String
deriving Repr, DecidableEq

/-- The in-memory state held by a fresh `state.NewManager`: status "idle",
zero values elsewhere. -/
def NewManagerState : State :=
  { sessionID := "", startedAt := 0, status := .idle, triggerEvent := "",
    currentPhase := 0, currentAction := 0, completedActions := [],
    lastUpdated := 0, lastError := "" }

/-- `Manager.SetStatus`; `now` stands for `time.Now()`. -/
def SetStatus (st : State) (s : Status) (now : Nat) : State :=
  { st with status := s, lastUpdated := now }

/-- `Manager.SetError`. -/
def SetError (st : State) (e : String) (now : Nat) : State :=
  { st with lastError := e, lastUpdated := now }

/-- `Manager.RecordAction`: appends one completed action. -/
def RecordAction (st : State) (a : CompletedAction) (now : Nat) : State :=
  { st with completedActions := st.completedActions ++ [a], lastUpdated := now }

/-- `Manager.UpdateProgress`. -/
def UpdateProgress (st : State) (phaseIndex actionIndex : Nat) (now : Nat) : State :=
  { st with currentPhase := phaseIndex, currentAction := actionIndex,
            lastUpdated := now }

/-- `Manager.StartSession`: replaces the state with a fresh in-progress
session whose id is the nanosecond clock. -/
def StartSession (trigger : String) (now : Nat) : State :=
  { sessionID := toString now, startedAt := now, status := .inProgress,
    triggerEvent := trigger, currentPhase := 0, currentAction := 0,
    completedActions := [], lastUpdated := now, lastError := "" }

/-- `Manager.Clear`: replaces the state with a fresh idle one. -/
def Clear (now : Nat) : State :=
  { NewManagerState with lastUpdated := now }

/-- `Manager.NeedsRecovery`: status is "in_progress" or "failed". -/
def NeedsRecovery (st : State) : Bool :=
  st.status == .inProgress || st.status == .failed

/-- `Manager.GetActionsForRecovery`: collect, in a pass over the completed
actions, those that succeeded and carry a non-empty recovery command; then
reverse the collected list in place by swapping symmetric positions. -/
def GetActionsForRecovery (st : State) : List CompletedAction :=
  let recoverable := st.completedActions.foldl
    (fun acc a =>
      if a.success && !(a.actionSpec.recovery == "") then acc ++ [a] else acc)
    []
  recoverable.reverse

/-- JSON string quoting (escaping is immaterial here). -/
def jstr (s : String) : String := "\"" ++ s ++ "\""

/-- One JSON key/value pair. -/
def jkv (k v : String) : String := jstr k ++ ": " ++ v

/-- Rendering of a `SelectorSpec`, standing in for `encoding/json`. -/
def marshalSelector (s : SelectorSpec) : String :=
  "\x7b" ++ String.intercalate ", "
    [ jkv "type" (jstr s.type),
      jkv "tags" ("[" ++ String.intercalate ", " (s.tags.map jstr) ++ "]"),
      jkv "exclude_tags" ("[" ++ String.intercalate ", " (s.excludeTags.map jstr) ++ "]"),
      jkv "name_regex" (jstr s.nameRegex),
      jkv "vmid_range" ("[" ++ String.intercalate ", " (s.vmidRange.map toString) ++ "]") ]
  ++ "\x7d"

/-- Rendering of an `ActionSpec`, standing in for `encoding/json`. -/
def marshalSpec (a : ActionSpec) : String :=
  "\x7b" ++ String.intercalate ", "
    [ jkv "type" (jstr a.type),
      jkv "host" (jstr a.host),
      jkv "user" (jstr a.user),
      jkv "guest" (jstr a.guest),
      jkv "command" (jstr a.command),
      jkv "recovery" (jstr a.recovery),
      jkv "action" (jstr a.action),
      jkv "selector" (match a.selector with | some s => marshalSelector s | none => "null") ]
  ++ "\x7d"

/-- Rendering of a `CompletedAction`, standing in for `encoding/json`. -/
def marshalAction (a : CompletedAction) : String :=
  "\x7b" ++ String.intercalate ", "
    [ jkv "phase_index" (toString a.phaseIndex),
      jkv "phase_name" (jstr a.phaseName),
      jkv "action_index" (toString a.actionIndex),
      jkv "action_type" (jstr a.actionType),
      jkv "action_spec" (marshalSpec a.actionSpec),
      jkv "completed_at" (toString a.completedAt),
      jkv "success" (toString a.success),
      jkv "output" (jstr a.output),
      jkv "error" (jstr a.error) ]
  ++ "\x7d"

/-- The full serialized journal document (`json.MarshalIndent(m.state, ...)`;
whitespace layout is immaterial, field set and order follow the struct). -/
def marshalState (st : State) : String :=
  "\x7b" ++ String.intercalate ", "
    [ jkv "session_id" (jstr st.sessionID),
      jkv "started_at" (toString st.startedAt),
      jkv "status" (jstr (statusStr st.status)),
      jkv "trigger_event" (jstr st.triggerEvent),
      jkv "current_phase" (toString st.currentPhase),
      jkv "current_action" (toString st.currentAction),
      jkv "completed_actions" ("[" ++ String.intercalate ", " (st.completedActions.map marshalAction) ++ "]"),
      jkv "last_updated" (toString st.lastUpdated),
      jkv "last_error" (jstr st.lastError) ]
  ++ "\x7d"

/-- File-system side effects, as issued by the save paths. -/
inductive FsOp
  | mkdirAll (path : String) (mode : Nat)
  | writeFile (path : String) (mode : Nat) (data : String)
  | createTemp (dir pattern : String)
  | fsyncFile (path : String)
  | renameFile (src dst : String)
deriving Repr, DecidableEq

/-- `dir := m.filePath[:len(m.filePath)-len("/state.json")]` in
`Manager.Save`. -/
def stateDirOf (filePath : String) : String :=
  filePath.dropRight ("/state.json".length)

/-- `Manager.Save`: ensure the directory exists (mode 0750), marshal the
state, and write the state file with `os.WriteFile` at mode 0600.  The
returned list is the sequence of file-system operations issued. -/
def SaveOps (filePath : String) (st : State) : List FsOp :=
  [ .mkdirAll (stateDirOf filePath) 0o750,
    .writeFile filePath 0o600 (marshalState st) ]

end StatePkg

namespace Orch

/-- Rendering of the orchestrator's own `CompletedAction`, standing in for
`encoding/json`. -/
def marshalOrchAction (a : CompletedAction) : String :=
  "\x7b" ++ String.intercalate ", "
    [ StatePkg.jkv "phase_index" (toString a.phaseIndex),
      StatePkg.jkv "phase_name" (StatePkg.jstr a.phaseName),
      StatePkg.jkv "action_index" (toString a.actionIndex),
      StatePkg.jkv "action_type" (StatePkg.jstr a.actionType),
      StatePkg.jkv "description" (StatePkg.jstr a.description),
      StatePkg.jkv "recovery_cmd" (StatePkg.jstr a.recoveryCmd),
      StatePkg.jkv "completed_at" (toString a.completedAt),
      StatePkg.jkv "success" (toString a.success),
      StatePkg.jkv "error" (StatePkg.jstr a.error) ]
  ++ "\x7d"

/-- The serialized orchestrator state (`json.MarshalIndent(o.state, ...)`). -/
def marshalOrchState (ost : State) : String :=
  "\x7b" ++ String.intercalate ", "
    [ StatePkg.jkv "session_id" (StatePkg.jstr ost.sessionID),
      StatePkg.jkv "started_at" (toString ost.startedAt),
      StatePkg.jkv "status" (StatePkg.jstr (statusStr ost.status)),
      StatePkg.jkv "current_phase" (toString ost.currentPhase),
      StatePkg.jkv "current_action" (toString ost.currentAction),
      StatePkg.jkv "completed_actions" ("[" ++ String.intercalate ", " (ost.completedActions.map marshalOrchAction) ++ "]"),
      StatePkg.jkv "trigger_event" (StatePkg.jstr ost.triggerEvent),
      StatePkg.jkv "last_updated" (toString ost.lastUpdated) ]
  ++ "\x7d"

/-- `Orchestrator.saveState`: marshal and `os.WriteFile` the state file at
mode 0600 — a single direct write. -/
def saveStateOps (stateFile : String) (ost : State) : List StatePkg.FsOp :=
  [ .writeFile stateFile 0o600 (marshalOrchState ost) ]

end Orch

namespace Recovery

/-- `recovery.Config`. -/
structure Config where
  enabled : Bool
  powerStableDelay : Nat
  onError : String
  maxRetries : Nat
deriving Repr, DecidableEq

/-- Result of `recovery.Manager.Execute`: the final journal state, the
returned Go error, and — ghost instrumentation — the successive values of
the journal's `Status` field over the call (the trailing entry after a
`Clear` is the fresh idle session's status). -/
structure RecoveryOut where
  state : StatePkg.State
  err : Option String
  trace : List Status
deriving Repr, DecidableEq

/-- `recovery.Manager.Execute(ctx)`.  `recover i a` abstracts
`m.recoverAction(ctx, a)` for the i-th recoverable action (`none` on
success, the error text otherwise); `ctxDone` tells whether the context is
cancelled during the power-stable wait.  Refused when recovery is disabled
or the status is neither "in_progress" nor "failed".  Otherwise: set status
"recovering" and persist; wait out the power-stable delay; run recovery for
each recoverable action in order, collecting errors (the `on_error` setting
only selects notification behavior — every branch continues); finally, with
no errors set status "idle" and clear the journal, else set status "failed"
and record the error count. -/
def Execute (cfg : Config) (recover : Nat → StatePkg.CompletedAction → Option String)
    (ctxDone : Bool) (now : Nat) (st : StatePkg.State) : RecoveryOut :=
  if !cfg.enabled then
    { state := st, err := some "recovery is disabled", trace := [st.status] }
  else if !(st.status == .inProgress) && !(st.status == .failed) then
    { state := st,
      err := some ("nothing to recover (status: " ++ statusStr st.status ++ ")"),
      trace := [st.status] }
  else
    let st1 := StatePkg.SetStatus st .recovering now
    if 0 < cfg.powerStableDelay && ctxDone then
      { state := st1, err := some "context canceled", trace := [st.status, .recovering] }
    else
      let actionsToRecover := StatePkg.GetActionsForRecovery st1
      let recoveryErrors := actionsToRecover.enum.filterMap (fun p => recover p.1 p.2)
      if recoveryErrors.length == 0 then
        let st2 := StatePkg.SetStatus st1 .idle now
        let st3 := StatePkg.Clear now
        { state := st3, err := none,
          trace := [st.status, .recovering, st2.status, st3.status] }
      else
        let st2 := StatePkg.SetStatus st1 .failed now
        let st3 := StatePkg.SetError st2
          (toString recoveryErrors.length ++ " recovery errors") now
        { state := st3,
          err := some ("recovery completed with " ++ toString recoveryErrors.length ++ " errors"),
          trace := [st.status, .recovering, .failed] }

end Recovery

section Lemmas

/-- Collecting the elements satisfying `p` by appending, as the
`GetActionsForRecovery` pass does, is filtering. -/
theorem foldl_collect_eq_filter {α : Type} (p : α → Bool) (l : List α) :
    ∀ init : List α,
      l.foldl (fun acc a => if p a then acc ++ [a] else acc) init = init ++ l.filter p := by
  induction l with
  | nil => intro init; simp
  | cons x xs ih =>
    intro init
    by_cases h : p x = true <;> simp [h, ih, List.filter_cons]

end Lemmas

/-- C5: `GetActionsForRecovery` returns exactly the completed actions whose
success flag is true and whose recovery command is non-empty, in the reverse
of the order in which they were appended to the journal. -/
theorem getActionsForRecovery_spec (st : StatePkg.State) :
    StatePkg.GetActionsForRecovery st =
      (st.completedActions.filter
        (fun a => a.success && !(a.actionSpec.recovery == ""))).reverse
    ∧ ∀ a : StatePkg.CompletedAction,
        a ∈ StatePkg.GetActionsForRecovery st ↔
          (a ∈ st.completedActions ∧ a.success = true ∧ a.actionSpec.recovery ≠ "") := by
  have hmain : StatePkg.GetActionsForRecovery st =
      (st.completedActions.filter
        (fun a => a.success && !(a.actionSpec.recovery == ""))).reverse := by
    unfold StatePkg.GetActionsForRecovery
    rw [foldl_collect_eq_filter]
    simp
  refine ⟨hmain, fun a => ?_⟩
  rw [hmain]
  simp [List.mem_filter, and_assoc]

/-- C6: on a tick whose sample is on battery, the battery-level events
emitted are exactly the single highest-severity kind whose `≤`-threshold
predicate holds — `Emergency` at charge ≤ emergency, else `CriticalBattery`
at charge ≤ critical, else `LowBattery` at charge ≤ warning — and hence at
most one battery-level event is emitted per tick. -/
theorem checkEvents_battery_severity (th : Ups.Thresholds) (cur : Ups.Status)
    (last : Option Ups.Status) (hob : cur.isOnBattery = true) :
    ((Ups.checkEvents th cur last).filter Ups.isBatteryEvent).map Ups.Event.type =
      (if cur.batteryCharge ≤ th.emergency then [Ups.EventType.emergency]
       else if cur.batteryCharge ≤ th.critical then [Ups.EventType.criticalBattery]
       else if cur.batteryCharge ≤ th.warning then [Ups.EventType.lowBattery]
       else [])
    ∧ ((Ups.checkEvents th cur last).filter Ups.isBatteryEvent).length ≤ 1 := by
  have hmain : ((Ups.checkEvents th cur last).filter Ups.isBatteryEvent).map Ups.Event.type =
      (if cur.batteryCharge ≤ th.emergency then [Ups.EventType.emergency]
       else if cur.batteryCharge ≤ th.critical then [Ups.EventType.criticalBattery]
       else if cur.batteryCharge ≤ th.warning then [Ups.EventType.lowBattery]
       else []) := by
    unfold Ups.checkEvents
    cases last with
    | none =>
      simp only [List.nil_append, hob, if_true]
      split_ifs <;> simp [Ups.isBatteryEvent]
    | some l =>
      simp only [hob, if_true, List.filter_append]
      split_ifs <;> simp [Ups.isBatteryEvent]
  constructor
  · exact hmain
  · have hlen : ((Ups.checkEvents th cur last).filter Ups.isBatteryEvent).length =
        (((Ups.checkEvents th cur last).filter Ups.isBatteryEvent).map Ups.Event.type).length := by
      simp
    rw [hlen, hmain]
    split_ifs <;> simp

/-- Witness for C6 at a concrete tick: a sample with charge exactly at the
critical threshold (and above emergency) yields `CriticalBattery`. -/
def thW : Ups.Thresholds := { warning := 30, critical := 20, emergency := 10 }

/-- An on-battery sample at exactly the critical threshold. -/
def sampleCrit : Ups.Status :=
  { name := "ups", status := "OB", batteryCharge := 20, runtime := 0, load := 0 }

theorem checkEvents_battery_severity_witness :
    sampleCrit.isOnBattery = true ∧
    ((Ups.checkEvents thW sampleCrit none).filter Ups.isBatteryEvent).map Ups.Event.type =
      (if sampleCrit.batteryCharge ≤ thW.emergency then [Ups.EventType.emergency]
       else if sampleCrit.batteryCharge ≤ thW.critical then [Ups.EventType.criticalBattery]
       else if sampleCrit.batteryCharge ≤ thW.warning then [Ups.EventType.lowBattery]
       else []) :=
  ⟨by decide, (checkEvents_battery_severity thW sampleCrit none (by decide)).1⟩

/-- C7: a tick emits exactly one `PowerLost` event when a previous sample is
retained, the previous sample has the online flag, and the current sample
has the on-battery flag — and `PowerLost` is emitted in no other
situation. -/
theorem checkEvents_powerLost_edge (th : Ups.Thresholds) (cur : Ups.Status)
    (last : Option Ups.Status) :
    (Ups.checkEvents th cur last).countP (fun e => e.type == Ups.EventType.powerLost) =
      (match last with
       | some l => if l.isOnline && cur.isOnBattery then 1 else 0
       | none => 0) := by
  unfold Ups.checkEvents
  cases last with
  | none => split_ifs <;> simp [List.countP_append, List.countP_cons]
  | some l =>
    simp only [List.countP_append]
    split_ifs <;> simp_all [List.countP_cons, List.countP_nil]

/-- C10: with no previous sample retained (the monitor's first successful
sample, arbitrarily many failed reads before it), the tick emits no
`PowerLost` or `PowerRestored`; if the first sample is on battery with
charge at or below one of the thresholds, a battery-level event is emitted
— so a battery-level event can be published with no preceding
`PowerLost`. -/
theorem first_sample_events (th : Ups.Thresholds) (k : Nat) (s : Ups.Status)
    (rest : List (Option Ups.Status)) (hob : s.isOnBattery = true)
    (hch : s.batteryCharge ≤ th.emergency ∨ s.batteryCharge ≤ th.critical ∨
           s.batteryCharge ≤ th.warning) :
    Ups.monitorTrace th (List.replicate k none ++ some s :: rest) none =
      Ups.checkEvents th s none ++ Ups.monitorTrace th rest (some s)
    ∧ (∀ e ∈ Ups.checkEvents th s none, Ups.isBatteryEvent e = true)
    ∧ Ups.checkEvents th s none ≠ [] := by
  refine ⟨?_, ?_, ?_⟩
  · induction k with
    | zero => simp [Ups.monitorTrace]
    | succ n ih => simpa [Ups.monitorTrace] using ih
  · intro e he
    unfold Ups.checkEvents at he
    simp only [List.nil_append, hob, if_true] at he
    split_ifs at he <;> simp_all [Ups.isBatteryEvent]
  · unfold Ups.checkEvents
    simp only [List.nil_append, hob, if_true]
    split_ifs with h1 h2 h3 <;> simp
    rcases hch with h | h | h <;> omega

/-- Witness for C10: one failed read, then a first sample on battery at 25%
against thresholds 30/20/10. -/
def sampleLow : Ups.Status :=
  { name := "ups", status := "OB", batteryCharge := 25, runtime := 0, load := 0 }

theorem first_sample_events_witness :
    sampleLow.isOnBattery = true ∧ Ups.checkEvents thW sampleLow none ≠ [] :=
  ⟨by decide,
   (first_sample_events thW 1 sampleLow [] (by decide) (Or.inr (Or.inr (by decide)))).2.2⟩

/-- Whether an operation is a direct write of the file at `p`. -/
def writesInPlace (p : String) : StatePkg.FsOp → Bool
  | .writeFile q _ _ => q == p
  | _ => false

/-- Whether an operation is a rename landing on any path. -/
def isRename : StatePkg.FsOp → Bool
  | .renameFile _ _ => true
  | _ => false

/-- Whether an operation creates a temporary file. -/
def isCreateTemp : StatePkg.FsOp → Bool
  | .createTemp _ _ => true
  | _ => false

/-- Whether an operation fsyncs a file. -/
def isFsync : StatePkg.FsOp → Bool
  | .fsyncFile _ => true
  | _ => false

/-- The default journal path. -/
def defaultStateFile : String := "/var/lib/proxmox-guardian/state.json"

/-- A concrete in-progress session for exercising the save paths. -/
def saveDemoState : StatePkg.State := StatePkg.StartSession "power_lost" 7

/-- A concrete orchestrator state for exercising `Orchestrator.saveState`. -/
def saveDemoOrchState : Orch.State :=
  { sessionID := "7", startedAt := 7, status := .inProgress, currentPhase := 0,
    currentAction := 0, completedActions := [], triggerEvent := "power_lost",
    lastUpdated := 7 }

/-- C2 counterexample: a journal update issues a direct in-place write of
the state file and performs no temporary-file creation, no fsync and no
rename — on both save paths (`Manager.Save` and `Orchestrator.saveState`) —
contradicting the claimed create-tempfile + fsync + rename scheme. -/
theorem save_not_atomic_counterexample :
    (StatePkg.SaveOps defaultStateFile saveDemoState).any (writesInPlace defaultStateFile) = true
    ∧ (StatePkg.SaveOps defaultStateFile saveDemoState).any isCreateTemp = false
    ∧ (StatePkg.SaveOps defaultStateFile saveDemoState).any isFsync = false
    ∧ (StatePkg.SaveOps defaultStateFile saveDemoState).any isRename = false
    ∧ (Orch.saveStateOps defaultStateFile saveDemoOrchState).any (writesInPlace defaultStateFile) = true
    ∧ (Orch.saveStateOps defaultStateFile saveDemoOrchState).any isCreateTemp = false
    ∧ (Orch.saveStateOps defaultStateFile saveDemoOrchState).any isFsync = false
    ∧ (Orch.saveStateOps defaultStateFile saveDemoOrchState).any isRename = false := by
  refine ⟨rfl, rfl, rfl, rfl, rfl, rfl, rfl, rfl⟩

/-- C2 amended: every journal update writes the full serialized Session
State to the single state file with one direct write at file mode 0600
(`Manager.Save` first creating the state directory at mode 0750); no
temporary file, fsync or rename is involved. -/
theorem save_writes_in_place (fp : String) (st : StatePkg.State) (ost : Orch.State) :
    StatePkg.SaveOps fp st =
      [ .mkdirAll (StatePkg.stateDirOf fp) 0o750,
        .writeFile fp 0o600 (StatePkg.marshalState st) ]
    ∧ Orch.saveStateOps fp ost = [ .writeFile fp 0o600 (Orch.marshalOrchState ost) ]
    ∧ (StatePkg.SaveOps fp st).any isCreateTemp = false
    ∧ (StatePkg.SaveOps fp st).any isFsync = false
    ∧ (StatePkg.SaveOps fp st).any isRename = false
    ∧ (Orch.saveStateOps fp ost).any isCreateTemp = false
    ∧ (Orch.saveStateOps fp ost).any isFsync = false
    ∧ (Orch.saveStateOps fp ost).any isRename = false := by
  refine ⟨rfl, rfl, rfl, rfl, rfl, rfl, rfl, rfl⟩

/-- An executor whose command always fails with exit status 1. -/
def failingExec : Orch.ExecutorModel :=
  { run := fun _ => { success := false, output := "", error := "exit 1",
                      goErr := some "exit status 1" },
    healthOk := true, healthErr := false, descr := "Local: exit 1" }

/-- An executor whose command always succeeds. -/
def succeedingExec : Orch.ExecutorModel :=
  { run := fun _ => { success := true, output := "ok\n", error := "", goErr := none },
    healthOk := true, healthErr := false, descr := "Local: echo ok" }

/-- A two-phase plan whose first phase holds one failing action with
`on_error: abort_all` and whose second phase holds one succeeding action. -/
def abortAllPlan : List Orch.Phase :=
  [ { name := "p0", parallel := false, timeout := 0, condition := "",
      actions := [ { type := "local", exec := failingExec, recovery := "",
                     onError := "abort_all", retry := none, healthcheck := none } ] },
    { name := "p1", parallel := false, timeout := 0, condition := "",
      actions := [ { type := "local", exec := succeedingExec, recovery := "",
                     onError := "continue", retry := none, healthcheck := none } ] } ]

/-- The fresh session state `Execute` opens for the plan above. -/
def abortAllSession : Orch.State :=
  { sessionID := "7", startedAt := 7, status := .inProgress, currentPhase := 0,
    currentAction := 0, completedActions := [], triggerEvent := "power_lost",
    lastUpdated := 7 }

/-- C1, evaluated at the failing input: the first phase reports the
abort-all error, yet `Execute` still runs the action of the later phase
(its journal entry for phase index 1 appears, successful) and returns with
session status "completed", not "failed". -/
theorem abort_all_does_not_abort :
    (Orch.executePhase (fun _ => false) 0 (abortAllPlan.get ⟨0, by decide⟩) abortAllSession).2 =
      some "action failed, aborting all"
    ∧ (Orch.Execute (fun _ => false) abortAllPlan "power_lost" 7).state.status = .completed
    ∧ (Orch.Execute (fun _ => false) abortAllPlan "power_lost" 7).state.status ≠ .failed
    ∧ ∃ a ∈ (Orch.Execute (fun _ => false) abortAllPlan "power_lost" 7).state.completedActions,
        a.phaseIndex = 1 ∧ a.success = true := by
  refine ⟨rfl, rfl, by decide, ?_⟩
  refine ⟨{ phaseIndex := 1, phaseName := "p1", actionIndex := 0, actionType := "local",
            description := "Local: echo ok", recoveryCmd := "", completedAt := 0,
            success := true, error := "" }, ?_, rfl, rfl⟩
  decide

/-- A recoverable journal state with status "completed", for entering
recovery from a completed session. -/
def doneSession : Orch.State := { abortAllSession with status := .completed }

/-- A journal state with status "failed" and no completed actions. -/
def failedJournal : StatePkg.State :=
  { StatePkg.NewManagerState with status := .failed }

/-- An enabled recovery configuration. -/
def recoveryCfg : Recovery.Config :=
  { enabled := true, powerStableDelay := 0, onError := "notify", maxRetries := 3 }

/-- C3: every status transition performed by the core operations stays
within the DAG idle → in-progress → \x7bcompleted, failed\x7d;
\x7bin-progress, completed, failed\x7d → recovering → \x7bidle, failed\x7d
(a trace step is either a DAG edge or leaves the status unchanged;
`Clear` replaces the session by a fresh idle one and performs no
same-session transition); the DAG has no completed → in-progress or
failed → in-progress edge; and recovering is entered from in-progress and
completed (by `Orchestrator.Recover`) and from failed (by the recovery
manager's `Execute`). -/
theorem status_transitions_within_dag :
    (∀ (ctxDone : Nat → Bool) (phases : List Orch.Phase) (trigger : String) (now : Nat),
       List.Chain' (fun a b => dagOk a b = true)
         ((Orch.Execute ctxDone phases trigger now).trace))
    ∧ (∀ ost : Orch.State,
         List.Chain' (fun a b => dagOk a b = true) ((Orch.Recover ost).trace))
    ∧ (∀ (cfg : Recovery.Config) (recover : Nat → StatePkg.CompletedAction → Option String)
         (ctxDone : Bool) (now : Nat) (st : StatePkg.State),
         List.Chain' (fun a b => dagOk a b = true)
           ((Recovery.Execute cfg recover ctxDone now st).trace))
    ∧ (∀ now : Nat, (StatePkg.Clear now).status = .idle
         ∧ (StatePkg.Clear now).completedActions = []
         ∧ (StatePkg.Clear now).sessionID = "")
    ∧ dagOk .completed .inProgress = false
    ∧ dagOk .failed .inProgress = false
    ∧ (doneSession.status = .completed
         ∧ (Orch.Recover doneSession).trace = [.completed, .recovering, .idle])
    ∧ (abortAllSession.status = .inProgress
         ∧ (Orch.Recover abortAllSession).trace = [.inProgress, .recovering, .idle])
    ∧ (failedJournal.status = .failed ∧ recoveryCfg.enabled = true
         ∧ (Recovery.Execute recoveryCfg (fun _ _ => none) false 9 failedJournal).trace =
             [.failed, .recovering, .idle, .idle]) := by
  refine ⟨?_, ?_, ?_, ?_, rfl, rfl, ⟨rfl, rfl⟩, ⟨rfl, rfl⟩, ⟨rfl, rfl, rfl⟩⟩
  · intro ctxDone phases trigger now
    simp [Orch.Execute, dagOk, dagStep]
  · intro ost
    cases h : ost.status <;> simp [Orch.Recover, h, dagOk, dagStep]
  · intro cfg recover ctxDone now st
    cases h : st.status <;>
      simp only [Recovery.Execute, h, StatePkg.SetStatus, StatePkg.Clear,
        StatePkg.NewManagerState] <;>
      split_ifs <;>
      simp_all [dagOk, dagStep]
  · intro now
    exact ⟨rfl, rfl, rfl⟩

/-- Running the retry loop from `attempt` when every attempt up to `M`
fails, attempt `M+1` succeeds (with `M+1` within the attempt budget), and
the context is never cancelled: the loop returns the successful result with
`Retries = M`, one `Execute` call per attempt from `attempt` to `M+1`. -/
theorem retryLoop_eventual_success (exec : Exec.ExecModel) (ctxDone : Nat → Bool)
    (N M : Nat) (backoff : String)
    (hMN : M < N)
    (hfail : ∀ i, 1 ≤ i → i ≤ M → ((exec i).goErr.isNone && (exec i).success) = false)
    (hsucc : ((exec (M + 1)).goErr.isNone && (exec (M + 1)).success) = true)
    (hctx : ∀ i, ctxDone i = false) :
    ∀ (rem attempt delay : Nat) (last : Option Exec.ActionResult)
      (lastErr : Option String) (calls : Nat),
      attempt + rem = N + 1 → 1 ≤ attempt → attempt ≤ M + 1 →
      Exec.retryLoop exec ctxDone N backoff rem attempt delay last lastErr calls =
        { result := some { Exec.outcomeResult (exec (M + 1)) with retries := M },
          err := none, calls := calls + (M + 2 - attempt) } := by
  intro rem
  induction rem with
  | zero =>
    intro attempt delay last lastErr calls hsum h1 hle
    exfalso
    omega
  | succ r ih =>
    intro attempt delay last lastErr calls hsum h1 hle
    by_cases hA : attempt = M + 1
    · subst hA
      have hMsub : M + 1 - 1 = M := by omega
      have hcsub : M + 2 - (M + 1) = 1 := by omega
      simp [Exec.retryLoop, hsucc, hMsub, hcsub]
    · have hA' : attempt ≤ M := by omega
      have hf := hfail attempt h1 hA'
      have hc := hctx attempt
      simp only [Exec.retryLoop, hf, hc, Bool.and_false, Bool.false_eq_true, if_false]
      rw [ih (attempt + 1) _ _ _ _ (by omega) (by omega) (by omega)]
      have : calls + 1 + (M + 2 - (attempt + 1)) = calls + (M + 2 - attempt) := by omega
      rw [this]

/-- C4: for a retry policy with `Attempts = N` and an executor failing on
its first `M < N` attempts (non-success result or transport error) and then
succeeding, with the context never cancelled, `ExecuteWithRetry` returns a
successful result whose `Retries` field equals `M` and a nil error. -/
theorem executeWithRetry_eventual_success (exec : Exec.ExecModel) (ctxDone : Nat → Bool)
    (N M : Nat) (r : Exec.RetryConfig)
    (hr : r.attempts = N) (hMN : M < N)
    (hfail : ∀ i, 1 ≤ i → i ≤ M → ((exec i).goErr.isNone && (exec i).success) = false)
    (hsucc : ((exec (M + 1)).goErr.isNone && (exec (M + 1)).success) = true)
    (hctx : ∀ i, ctxDone i = false) :
    (Exec.ExecuteWithRetry exec ctxDone (some r)).err = none
    ∧ ∃ res, (Exec.ExecuteWithRetry exec ctxDone (some r)).result = some res
        ∧ res.success = true ∧ res.retries = M := by
  have hs : (exec (M + 1)).goErr.isNone = true ∧ (exec (M + 1)).success = true := by
    simpa [Bool.and_eq_true] using hsucc
  have hsOk : (exec (M + 1)).success = true := hs.2
  have hsErr : (exec (M + 1)).goErr = none := Option.isNone_iff_eq_none.mp hs.1
  by_cases hN1 : N ≤ 1
  · have hM0 : M = 0 := by omega
    subst hM0
    unfold Exec.ExecuteWithRetry
    simp only [hr, hN1, if_true, if_pos]
    refine ⟨by simpa using hsErr, ⟨Exec.outcomeResult (exec 1), rfl, ?_, rfl⟩⟩
    simpa [Exec.outcomeResult] using hsOk
  · have hkey := retryLoop_eventual_success exec ctxDone N M r.backoff hMN hfail hsucc hctx
      N 1 r.delay none none 0 (by omega) (by omega) (by omega)
    unfold Exec.ExecuteWithRetry
    simp only [hr, hN1, if_false]
    rw [hkey]
    exact ⟨rfl, ⟨_, rfl, by simpa [Exec.outcomeResult] using hsOk, rfl⟩⟩

/-- A never-cancelled context. -/
def noCancel : Nat → Bool := fun _ => false

/-- A failing execution outcome (non-zero exit). -/
def failOut : Exec.ExecOutcome :=
  { success := false, output := "", error := "exit 1", goErr := some "exit status 1" }

/-- A successful execution outcome. -/
def okOut : Exec.ExecOutcome :=
  { success := true, output := "ok\n", error := "", goErr := none }

/-- An executor failing on attempts 1 and 2 and succeeding afterwards. -/
def retryExec : Exec.ExecModel := fun i => if i ≤ 2 then failOut else okOut

/-- A 3-attempt linear retry policy. -/
def retryCfg3 : Exec.RetryConfig := { attempts := 3, delay := 10, backoff := "linear" }

theorem executeWithRetry_eventual_success_witness :
    (Exec.ExecuteWithRetry retryExec noCancel (some retryCfg3)).err = none
    ∧ ∃ res, (Exec.ExecuteWithRetry retryExec noCancel (some retryCfg3)).result = some res
        ∧ res.success = true ∧ res.retries = 2 :=
  executeWithRetry_eventual_success retryExec noCancel 3 2 retryCfg3 rfl (by omega)
    (fun i h1 h2 => by simp [retryExec, h2, failOut])
    (by decide) (fun i => rfl)

/-- Running the retry loop from `attempt ≤ N` when every attempt in the
budget fails and the context is never cancelled: the loop exhausts the
budget and returns the last result with `Retries = N` and the last error,
having called `Execute` once per remaining attempt. -/
theorem retryLoop_all_fail (exec : Exec.ExecModel) (ctxDone : Nat → Bool)
    (N : Nat) (backoff : String)
    (hfail : ∀ i, 1 ≤ i → i ≤ N → ((exec i).goErr.isNone && (exec i).success) = false)
    (hctx : ∀ i, ctxDone i = false) :
    ∀ (rem attempt delay : Nat) (last : Option Exec.ActionResult)
      (lastErr : Option String) (calls : Nat),
      attempt + rem = N + 1 → 1 ≤ attempt → attempt ≤ N →
      Exec.retryLoop exec ctxDone N backoff rem attempt delay last lastErr calls =
        { result := some { Exec.outcomeResult (exec N) with retries := N },
          err := (exec N).goErr, calls := calls + rem } := by
  intro rem
  induction rem with
  | zero =>
    intro attempt delay last lastErr calls hsum h1 hle
    exfalso
    omega
  | succ r ih =>
    intro attempt delay last lastErr calls hsum h1 hle
    have hf := hfail attempt h1 hle
    have hc := hctx attempt
    by_cases hA : attempt = N
    · subst hA
      have hr0 : r = 0 := by omega
      subst hr0
      simp [Exec.retryLoop, hf, hc]
    · have hlt : attempt < N := by omega
      simp only [Exec.retryLoop, hf, hc, Bool.and_false, Bool.false_eq_true, if_false]
      rw [ih (attempt + 1) _ _ _ _ (by omega) (by omega) (by omega)]
      have : calls + 1 + r = calls + (r + 1) := by omega
      rw [this]

/-- C9: with `Attempts = N ≥ 2`, an executor failing on all `N` attempts and
a never-cancelled context, `ExecuteWithRetry` performs `N` `Execute` calls
and returns the last result with its `Retries` field set to `N` (the total
attempt count, one more than the number of re-tries, asymmetric with the
`M` recorded on success) together with the last error; with a nil policy or
`Attempts ≤ 1` it performs exactly one `Execute` call and the result's
`Retries` field stays 0. -/
theorem executeWithRetry_exhausted (exec : Exec.ExecModel) (ctxDone : Nat → Bool)
    (N : Nat) (r : Exec.RetryConfig)
    (hr : r.attempts = N) (hN : 2 ≤ N)
    (hfail : ∀ i, 1 ≤ i → i ≤ N → ((exec i).goErr.isNone && (exec i).success) = false)
    (hctx : ∀ i, ctxDone i = false) :
    Exec.ExecuteWithRetry exec ctxDone (some r) =
      { result := some { Exec.outcomeResult (exec N) with retries := N },
        err := (exec N).goErr, calls := N }
    ∧ (∀ r' : Exec.RetryConfig, r'.attempts ≤ 1 →
         Exec.ExecuteWithRetry exec ctxDone (some r') =
           { result := some (Exec.outcomeResult (exec 1)), err := (exec 1).goErr, calls := 1 })
    ∧ Exec.ExecuteWithRetry exec ctxDone none =
        { result := some (Exec.outcomeResult (exec 1)), err := (exec 1).goErr, calls := 1 }
    ∧ (Exec.outcomeResult (exec 1)).retries = 0 := by
  refine ⟨?_, ?_, rfl, rfl⟩
  · have hkey := retryLoop_all_fail exec ctxDone N r.backoff hfail hctx
      N 1 r.delay none none 0 (by omega) (by omega) (by omega)
    unfold Exec.ExecuteWithRetry
    simp only [hr, (show ¬(N ≤ 1) by omega), if_false]
    rw [hkey]
    simp
  · intro r' h
    unfold Exec.ExecuteWithRetry
    simp only [h, if_true, if_pos]

/-- An executor failing on every attempt. -/
def allFailExec : Exec.ExecModel := fun _ => failOut

/-- A 2-attempt exponential retry policy. -/
def retryCfg2 : Exec.RetryConfig := { attempts := 2, delay := 5, backoff := "exponential" }

theorem executeWithRetry_exhausted_witness :
    Exec.ExecuteWithRetry allFailExec noCancel (some retryCfg2) =
      { result := some { Exec.outcomeResult (allFailExec 2) with retries := 2 },
        err := (allFailExec 2).goErr, calls := 2 } :=
  (executeWithRetry_exhausted allFailExec noCancel 2 retryCfg2 rfl (by omega)
    (fun i h1 h2 => rfl) (fun i => rfl)).1

/-- Changing only the status leaves the recoverable-action list unchanged. -/
theorem getActionsForRecovery_setStatus (st : StatePkg.State) (s : Status) (now : Nat) :
    StatePkg.GetActionsForRecovery (StatePkg.SetStatus st s now) =
      StatePkg.GetActionsForRecovery st := rfl

/-- C8: when the recovery manager's `Execute` runs to completion (recovery
enabled, status recoverable, no cancellation), then: if every recoverable
action recovers without error, the final status is "idle" and the journal is
cleared to the fresh state; otherwise the final status is "failed", the
last-error string records the count of recovery errors, and the returned
error reports the same count. -/
theorem recovery_finish (cfg : Recovery.Config)
    (recover : Nat → StatePkg.CompletedAction → Option String) (now : Nat)
    (st : StatePkg.State)
    (hen : cfg.enabled = true)
    (hst : st.status = .inProgress ∨ st.status = .failed) :
    ((StatePkg.GetActionsForRecovery st).enum.filterMap (fun p => recover p.1 p.2) = [] →
       (Recovery.Execute cfg recover false now st).state = StatePkg.Clear now
       ∧ (Recovery.Execute cfg recover false now st).state.status = .idle
       ∧ (Recovery.Execute cfg recover false now st).state.completedActions = []
       ∧ (Recovery.Execute cfg recover false now st).err = none)
    ∧ ((StatePkg.GetActionsForRecovery st).enum.filterMap (fun p => recover p.1 p.2) ≠ [] →
       (Recovery.Execute cfg recover false now st).state.status = .failed
       ∧ (Recovery.Execute cfg recover false now st).state.lastError =
           toString ((StatePkg.GetActionsForRecovery st).enum.filterMap
             (fun p => recover p.1 p.2)).length ++ " recovery errors"
       ∧ (Recovery.Execute cfg recover false now st).err =
           some ("recovery completed with " ++
             toString ((StatePkg.GetActionsForRecovery st).enum.filterMap
               (fun p => recover p.1 p.2)).length ++ " errors")) := by
  have hguard : (!(st.status == Status.inProgress) && !(st.status == Status.failed)) = false := by
    rcases hst with h | h <;> simp [h]
  constructor
  · intro h0
    unfold Recovery.Execute
    simp [hen, hguard, getActionsForRecovery_setStatus, h0, StatePkg.Clear,
      StatePkg.NewManagerState]
  · intro hne
    have hlen : ((StatePkg.GetActionsForRecovery st).enum.filterMap
        (fun p => recover p.1 p.2)).length ≠ 0 := by
      simpa [List.length_eq_zero] using hne
    have hbeq : (((StatePkg.GetActionsForRecovery st).enum.filterMap
        (fun p => recover p.1 p.2)).length == 0) = false :=
      beq_eq_false_iff_ne.mpr hlen
    unfold Recovery.Execute
    simp only [hen, hguard, getActionsForRecovery_setStatus, hbeq, Bool.not_true,
      Bool.and_self, Bool.false_eq_true, if_false, decide_True, decide_False,
      Bool.and_false, Bool.false_and]
    simp [StatePkg.SetError, StatePkg.SetStatus]

theorem recovery_finish_witness :
    (Recovery.Execute recoveryCfg (fun _ _ => none) false 9 failedJournal).state.status = .idle
    ∧ (Recovery.Execute recoveryCfg (fun _ _ => none) false 9 failedJournal).state.completedActions = []
    ∧ (Recovery.Execute recoveryCfg (fun _ _ => none) false 9 failedJournal).err = none :=
  have h := recovery_finish recoveryCfg (fun _ _ => none) 9 failedJournal rfl (Or.inr rfl)
  ⟨(h.1 rfl).2.1, (h.1 rfl).2.2.1, (h.1 rfl).2.2.2⟩

end Guardian
